import Mathlib

/-!
Shallow embedding of `ganga/.ganga.py`, a small library of convenience
functions over the Ganga grid-job framework: job/subjob objects carrying
DiracFile output descriptors, with delegated remote operations
(`get`, `remove`, `replicate`, `accessURL`, `resubmit`, `reset`).

Modelling conventions:
- Python exceptions are modelled with `Except PyError`; a function whose
  body can raise an uncaught exception returns `Except`.
- `df.lfn` may be absent in Python (empty/falsy); the model uses the empty
  string for an absent LFN, matching the truthiness tests `if not df.lfn`
  and `if df.lfn` in the source.
- Console output is modelled as a list of the printed strings; each
  `print(...)` contributes one entry, with the same text the source formats.
- Remote backend invocations are recorded as a list of `RemoteCall` values
  in source order; the framework itself is outside the program.
- `outputfiles.get(DiracFile)` selects the DiracFile descriptors of the
  collection; the model's `outputfiles` field holds exactly those, so the
  selection is the identity on it.
- `get_subjobs` returns either the framework's subjob collection
  (`job.subjobs`, which offers a `select` method) or the plain Python list
  `[job]`. A plain Python list has no `select` attribute, so calling
  `select` on it raises `AttributeError`; the sum type `SubjobSeq` keeps
  that distinction.
- Writing a file with `open(fname, 'w')` + `writelines` is a full
  overwrite; it is modelled by returning the pair of the file name and the
  complete new content.
-/

/-- Python exception kinds that the source raises or catches. -/
inductive PyError where
  | attributeError : PyError
  | keyError : PyError
  | osError : PyError
deriving DecidableEq, Repr

deriving instance DecidableEq for Except

/-- A DiracFile output descriptor: `namePattern`, `lfn` (empty string for an
absent LFN), `locations` (storage-element names), and the outcome of calling
its `accessURL()` method (a list of URLs, or an exception). -/
structure DiracFile where
  namePattern : String
  lfn : String
  locations : List String
  accessURL : Except PyError (List String)
deriving DecidableEq, Repr

/-- A subjob: id, status, and its DiracFile output descriptors. -/
structure Subjob where
  id : Nat
  status : String
  outputfiles : List DiracFile
deriving DecidableEq, Repr

/-- A job: id, status, subjobs (possibly empty), and its own output files. -/
structure Job where
  id : Nat
  status : String
  subjobs : List Subjob
  outputfiles : List DiracFile
deriving DecidableEq, Repr

/-- The view of a job as a unit of work, as used when the job itself stands
in for its (absent) subjobs. -/
def Job.asSubjob (j : Job) : Subjob :=
  { id := j.id, status := j.status, outputfiles := j.outputfiles }

/-- The dynamic type of what `get_subjobs` returns: either the framework's
subjob collection (which has a `select` method) or a plain Python list
(which does not). -/
inductive SubjobSeq where
  | ganga (sjs : List Subjob)
  | plain (sjs : List Subjob)
deriving DecidableEq, Repr

/-- The underlying sequence of subjobs, as obtained by iterating either
kind of collection. -/
def SubjobSeq.toList : SubjobSeq → List Subjob
  | .ganga sjs => sjs
  | .plain sjs => sjs

/-- Model of `seq.select(status=st)`: on a framework collection, filters by status;
on a plain Python list, raises `AttributeError` (lists have no `select`). -/
def SubjobSeq.select (s : SubjobSeq) (st : String) : Except PyError (List Subjob) :=
  match s with
  | .ganga sjs => .ok (sjs.filter (fun sj => sj.status == st))
  | .plain _ => .error .attributeError

/-- Model of `get_subjobs(job)`: returns `job.subjobs`, or the plain list `[job]`
when the job has no subjobs (`if not subjobs: subjobs = [job]`). -/
def get_subjobs (job : Job) : SubjobSeq :=
  if job.subjobs.isEmpty then .plain [job.asSubjob] else .ganga job.subjobs

/-- A recorded invocation of a remote backend operation. -/
inductive RemoteCall where
  | get (df : DiracFile) (localPath : String) (legacy : Bool)
  | remove (df : DiracFile)
  | replicate (df : DiracFile) (location : String)
  | resubmit (sjid : Nat)
  | reset (sjid : Nat)
deriving DecidableEq, Repr

/-- Local filesystem state: the set of directories that exist, as a list of
paths. -/
structure FS where
  dirs : List String
deriving DecidableEq, Repr

/-- Model of `os.makedirs(p)`: raises `OSError` when `p` already exists, otherwise
creates it. -/
def FS.makedirs (fs : FS) (p : String) : Except PyError FS :=
  if fs.dirs.contains p then .error .osError else .ok ⟨fs.dirs ++ [p]⟩

/-- Model of `'6-0' in v`: Python substring containment, used on the Ganga version
string to pick the legacy download calling convention. -/
def ganga60 (v : String) : Bool :=
  (v.splitOn "6-0").length > 1

/-- The path `os.path.join(path, str(job_id), str(jid))` as built by `download_lfns`. -/
def downloadDir (path : String) (jobId jid : Nat) : String :=
  path ++ "/" ++ toString jobId ++ "/" ++ toString jid

/-- State threaded through the `download_lfns` loops: filesystem,
console output so far, and remote calls made so far. -/
structure DLState where
  fs : FS
  prints : List String
  calls : List RemoteCall
deriving DecidableEq, Repr

/-- The `(jid, outputfiles)` pairs `download_lfns` iterates over: the
completed subjobs when there are subjobs, else the job itself under
pseudo-id 0 when it is completed, else nothing. -/
def download_outputs (job : Job) : List (Nat × List DiracFile) :=
  if !job.subjobs.isEmpty then
    (job.subjobs.filter (fun sj => sj.status == "completed")).map
      (fun sj => (sj.id, sj.outputfiles))
  else if job.status == "completed" then [(0, job.outputfiles)] else []

/-- The body of the inner `for df in output.get(DiracFile)` loop of
`download_lfns`, acting on one DiracFile. -/
def download_step (gv : String) (jobId : Nat) (path : String)
    (matcher : DiracFile → Bool) (jid : Nat) (st : DLState) (df : DiracFile) :
    DLState :=
  if df.lfn == "" then
    { st with prints := st.prints ++
        ["Skipping job " ++ toString jobId ++ " subjob " ++ toString jid,
         "No output data LFN"] }
  else if !matcher df then
    { st with prints := st.prints ++
        ["Skipping job " ++ toString jobId ++ " subjob " ++ toString jid ++
           " file " ++ df.lfn,
         "Not matched by matcher method"] }
  else
    match st.fs.makedirs (downloadDir path jobId jid) with
    | .error _ =>
        { st with prints := st.prints ++
            ["Skipping job " ++ toString jobId ++ " subjob " ++ toString jid,
             "Directory exists: " ++ downloadDir path jobId jid] }
    | .ok fs2 =>
        { fs := fs2, prints := st.prints,
          calls := st.calls ++
            [RemoteCall.get df (downloadDir path jobId jid) (ganga60 gv)] }

/-- The inner loop of `download_lfns` over one subjob's output files. -/
def download_output_loop (gv : String) (jobId : Nat) (path : String)
    (matcher : DiracFile → Bool) (jid : Nat) (st : DLState)
    (output : List DiracFile) : DLState :=
  output.foldl (download_step gv jobId path matcher jid) st

/-- The outer loop of `download_lfns` over the `(jid, output)` pairs. -/
def download_loop (gv : String) (jobId : Nat) (path : String)
    (matcher : DiracFile → Bool) (st : DLState)
    (outputs : List (Nat × List DiracFile)) : DLState :=
  outputs.foldl
    (fun st p => download_output_loop gv jobId path matcher p.1 st p.2) st

/-- Model of `download_lfns(job, path, matcher)`: downloads the DiracFiles of all
completed subjobs (or of the job itself when it has none) into
`path/job.id/subjob.id`, skipping — with printed reasons and without
raising — files without an LFN, files rejected by the matcher, and
subjobs whose destination directory already exists. `gv` is the ambient
Ganga version string consulted for the calling convention of `get`. -/
def download_lfns (gv : String) (job : Job) (path : String)
    (matcher : Option (DiracFile → Bool)) (fs : FS) : DLState :=
  let m := matcher.getD (fun _ => true)
  let header := "Downloading LFNs to " ++ path ++ "/" ++ toString job.id
  let prints0 :=
    if !job.subjobs.isEmpty then
      [header,
       "Will download " ++ toString (download_outputs job).length ++ "/" ++
         toString job.subjobs.length ++ " subjobs"]
    else [header]
  download_loop gv job.id path m
    { fs := fs, prints := prints0, calls := [] } (download_outputs job)

/-- Model of `delete_lfns(job)`: removes every grid file, of each completed subjob
(or of the completed job itself when it has none), that has an LFN.
Returns the console output and the `remove` calls issued. -/
def delete_lfns (job : Job) : List String × List RemoteCall :=
  let outputs :=
    if !job.subjobs.isEmpty then
      (job.subjobs.filter (fun sj => sj.status == "completed")).map
        (fun sj => sj.outputfiles)
    else if job.status == "completed" then [job.outputfiles] else []
  (["Deleting LFNs of job " ++ toString job.id],
   outputs.flatMap (fun output =>
     (output.filter (fun df => df.lfn != "")).map
       (fun df => RemoteCall.remove df)))

/-- Model of `print_incomplete(job)`: prints `id status` for every subjob whose
status is not `completed`. -/
def print_incomplete (job : Job) : List String :=
  (job.subjobs.filter (fun sj => sj.status != "completed")).map
    (fun sj => toString sj.id ++ " " ++ sj.status)

/-- Model of `resubmit_failed(job)`: resubmits every subjob with status `failed`.
Returns the console output and the `resubmit` calls issued. -/
def resubmit_failed (job : Job) : List String × List RemoteCall :=
  let failed := job.subjobs.filter (fun sj => sj.status == "failed")
  (failed.map (fun sj => "Resubmitting subjob " ++ toString sj.id),
   failed.map (fun sj => RemoteCall.resubmit sj.id))

/-- Model of `reset_failed(job)`: calls `backend.reset()` on every subjob with
status `failed`. Returns the console output and the `reset` calls issued. -/
def reset_failed (job : Job) : List String × List RemoteCall :=
  let failed := job.subjobs.filter (fun sj => sj.status == "failed")
  (failed.map (fun sj => "Resetting subjob " ++ toString sj.id),
   failed.map (fun sj => RemoteCall.reset sj.id))

/-- Model of `replicate_to_cern(job)`: for every completed element of
`get_subjobs(job).select(status='completed')`, replicates each DiracFile
not already located at `CERN-USER` to `CERN-USER`. Raises on a
subjob-less job, where `select` is called on a plain list. -/
def replicate_to_cern (job : Job) : Except PyError (List RemoteCall) := do
  let sjs ← (get_subjobs job).select "completed"
  return sjs.flatMap (fun sj =>
    (sj.outputfiles.filter (fun df => !(df.locations.contains "CERN-USER"))).map
      (fun df => RemoteCall.replicate df "CERN-USER"))

/-- Model of `f.writelines(seq)`: concatenation of the written strings, i.e. the
content of the freshly opened (truncated) file afterwards. -/
def writelines : List String → String
  | [] => ""
  | s :: rest => s ++ writelines rest

/-- The LFNs `write_lfns` collects: each DiracFile of each completed
subjob that is located at `CERN-USER` (or any DiracFile when `cern_only`
is false), in iteration order, with no check that the LFN is present. -/
def lfnsCollected (sjs : List Subjob) (cern_only : Bool) : List String :=
  sjs.flatMap (fun sj =>
    ((sj.outputfiles.filter
        (fun df => df.locations.contains "CERN-USER" || !cern_only)).map
      (fun df => df.lfn)))

/-- Model of `write_lfns(job, fname, cern_only)`: writes the collected LFNs one per
line to `fname`, overwriting it; returns the file name and its complete
new content. Raises on a subjob-less job, where `select` is called on a
plain list. -/
def write_lfns (job : Job) (fname : String) (cern_only : Bool) :
    Except PyError (String × String) := do
  let sjs ← (get_subjobs job).select "completed"
  let lfns := lfnsCollected sjs cern_only
  return (fname, writelines (lfns.map (fun lfn => lfn ++ "\n")))

/-- Model of `write_access_urls(job, fname)`: concatenates (`+=`) the URL lists
returned by `accessURL()` for every DiracFile of every completed subjob
and writes them one per line to `fname`. No exception is caught here. -/
def write_access_urls (job : Job) (fname : String) :
    Except PyError (String × String) := do
  let sjs ← (get_subjobs job).select "completed"
  let pfns ← sjs.foldlM (fun acc sj =>
    sj.outputfiles.foldlM (fun acc2 df => do
      let us ← df.accessURL
      return acc2 ++ us) acc) ([] : List String)
  return (fname, writelines (pfns.map (fun pfn => pfn ++ "\n")))

/-- Python `s.endswith(suffix)`, modelled on the character sequence. -/
def strEndsWith (s suffix : String) : Bool :=
  suffix.data.isSuffixOf s.data

/-- Model of `diracfile_root_matcher(df)`: true when `namePattern` ends with
`.root`. -/
def diracfile_root_matcher (df : DiracFile) : Bool :=
  strEndsWith df.namePattern ".root"

/-- The body of the `for df in filter(matcher, outputs)` loop of
`access_urls`: append the `accessURL()` value (a list, appended as one
element), catching only `KeyError` with a printed notice; any other
exception propagates. The accumulator is (console output, urls). -/
def access_step (sjid : Nat) (acc : List String × List (List String))
    (df : DiracFile) : Except PyError (List String × List (List String)) :=
  match df.accessURL with
  | .ok u => .ok (acc.1, acc.2 ++ [u])
  | .error .keyError =>
      .ok (acc.1 ++ ["Could not get accessURL for " ++ toString sjid], acc.2)
  | .error e => .error e

/-- Model of `access_urls(job, matcher)`: the `accessURL()` values of the matching
DiracFiles of the completed subjobs, with `KeyError` entries skipped and
noticed on the console. Returns (console output, urls). Raises on a
subjob-less job, where `select` is called on a plain list. -/
def access_urls (job : Job) (matcher : DiracFile → Bool) :
    Except PyError (List String × List (List String)) := do
  let sjs ← (get_subjobs job).select "completed"
  sjs.foldlM (fun acc sj =>
    (sj.outputfiles.filter matcher).foldlM (access_step sj.id) acc)
    (([], []) : List String × List (List String))

/-! ## Concrete instances used as witnesses and counterexamples -/

/-- A `.root` output file at CERN-USER with an LFN and a working access URL. -/
def exRootFile : DiracFile :=
  { namePattern := "a.root", lfn := "/lhcb/user/a.root",
    locations := ["CERN-USER"], accessURL := .ok ["root://eoslhcb.cern.ch//a.root"] }

/-- An output file at CERN-USER with no LFN (empty string models absence). -/
def exNoLfnFile : DiracFile :=
  { namePattern := "b.log", lfn := "",
    locations := ["CERN-USER"], accessURL := .ok ["root://b"] }

/-- A `.root` output file away from CERN whose `accessURL()` raises
`KeyError`. -/
def exKeyErrFile : DiracFile :=
  { namePattern := "c.root", lfn := "/lhcb/user/c.root",
    locations := ["RAL-USER"], accessURL := .error .keyError }

/-- A completed subjob with one good file and one LFN-less file. -/
def exCompletedSubjob : Subjob :=
  { id := 0, status := "completed", outputfiles := [exRootFile, exNoLfnFile] }

/-- A failed subjob. -/
def exFailedSubjob : Subjob :=
  { id := 1, status := "failed", outputfiles := [exKeyErrFile] }

/-- A completed subjob whose only file has a failing `accessURL()`. -/
def exKeyErrSubjob : Subjob :=
  { id := 2, status := "completed", outputfiles := [exKeyErrFile] }

/-- A job with three subjobs: completed, failed, completed. -/
def exJob : Job :=
  { id := 7, status := "running",
    subjobs := [exCompletedSubjob, exFailedSubjob, exKeyErrSubjob],
    outputfiles := [] }

/-- A completed job with no subjobs and one output file. -/
def noSubjobsJob : Job :=
  { id := 8, status := "completed", subjobs := [], outputfiles := [exRootFile] }

/-- A failed job with no subjobs. -/
def noSubjobsFailedJob : Job :=
  { id := 9, status := "failed", subjobs := [], outputfiles := [exRootFile] }

/-! ## Shared helper notions and lemmas -/

/-- The subjobs a `select(status='completed')` keeps. -/
def completed_subjobs (job : Job) : List Subjob :=
  job.subjobs.filter (fun sj => sj.status == "completed")

/-- A DiracFile whose `accessURL()` either succeeds or raises exactly
`KeyError` (the one exception `access_urls` catches). -/
def onlyKeyError (df : DiracFile) : Prop :=
  df.accessURL.isOk = true ∨ df.accessURL = .error .keyError

instance (df : DiracFile) : Decidable (onlyKeyError df) := by
  unfold onlyKeyError; infer_instance

theorem select_completed_of_ne_nil (job : Job) (h : job.subjobs ≠ []) :
    (get_subjobs job).select "completed" = .ok (completed_subjobs job) := by
  simp only [get_subjobs, List.isEmpty_iff]
  rw [if_neg h]
  rfl

/-! ## C2 -/

/-- C2: `get_subjobs(job)` returns the singleton plain list `[job]` when
`job.subjobs` is empty, and returns `job.subjobs` itself, unchanged (as the
framework collection), otherwise. -/
theorem get_subjobs_correct (job : Job) :
    (job.subjobs = [] → get_subjobs job = SubjobSeq.plain [job.asSubjob]) ∧
    (job.subjobs ≠ [] → get_subjobs job = SubjobSeq.ganga job.subjobs) := by
  constructor <;> intro h
  · simp [get_subjobs, h]
  · simp only [get_subjobs, List.isEmpty_iff]
    rw [if_neg h]

/-- Witness for C2 at a subjob-less job and at a job with subjobs. -/
theorem get_subjobs_correct_witness :
    get_subjobs noSubjobsJob = SubjobSeq.plain [noSubjobsJob.asSubjob] ∧
    get_subjobs exJob = SubjobSeq.ganga exJob.subjobs :=
  ⟨(get_subjobs_correct noSubjobsJob).1 rfl,
   (get_subjobs_correct exJob).2 (by decide)⟩

/-! ## C1 -/

/-- C1: contrary to the claim, a completed job with an empty subjob list is
not processed as its own unit of work: `get_subjobs` hands the plain Python
list `[job]` to `.select(status='completed')`, which a plain list does not
have, so `replicate_to_cern`, `write_lfns`, `write_access_urls` and
`access_urls` all abort with `AttributeError` before touching the job's
output files. -/
theorem select_on_plain_list_raises :
    replicate_to_cern noSubjobsJob = .error .attributeError ∧
    write_lfns noSubjobsJob "out.txt" true = .error .attributeError ∧
    write_access_urls noSubjobsJob "out.txt" = .error .attributeError ∧
    access_urls noSubjobsJob diracfile_root_matcher = .error .attributeError :=
  ⟨rfl, rfl, rfl, rfl⟩

/-! ## C9 -/

/-- C9: `print_incomplete`, `resubmit_failed` and `reset_failed` iterate
`job.subjobs` directly, so a job with zero subjobs triggers no output and
no resubmit/reset call, whatever the job's own status is. -/
theorem no_subjobs_no_action (job : Job) (h : job.subjobs = []) :
    print_incomplete job = [] ∧ resubmit_failed job = ([], []) ∧
      reset_failed job = ([], []) := by
  simp [print_incomplete, resubmit_failed, reset_failed, h]

/-- Witness for C9: a failed job with no subjobs is left untouched. -/
theorem no_subjobs_no_action_witness :
    noSubjobsFailedJob.status = "failed" ∧
    (print_incomplete noSubjobsFailedJob = [] ∧
      resubmit_failed noSubjobsFailedJob = ([], []) ∧
      reset_failed noSubjobsFailedJob = ([], [])) :=
  ⟨rfl, no_subjobs_no_action noSubjobsFailedJob rfl⟩

/-! ## C8 -/

/-- C8: `delete_lfns` issues `remove` exactly on the output files, of
completed subjobs (or of the completed subjob-less job itself), that carry
an LFN; LFN-less files and files of non-completed subjobs are never
removed. -/
theorem delete_lfns_exact (job : Job) (df : DiracFile) :
    RemoteCall.remove df ∈ (delete_lfns job).2 ↔
      df.lfn ≠ "" ∧
        ((∃ sj ∈ job.subjobs, sj.status = "completed" ∧ df ∈ sj.outputfiles) ∨
         (job.subjobs = [] ∧ job.status = "completed" ∧ df ∈ job.outputfiles)) := by
  by_cases h : job.subjobs = []
  · by_cases hs : job.status = "completed"
    · simp [delete_lfns, h, hs, List.mem_filter, bne_iff_ne, and_comm]
    · simp only [delete_lfns, h]
      simp [hs, beq_iff_eq]
  · by_cases hne : job.subjobs.isEmpty
    · exact absurd (List.isEmpty_iff.mp hne) h
    · simp only [delete_lfns, hne, Bool.not_false, if_pos]
      simp [List.mem_flatMap, List.mem_map, List.mem_filter, bne_iff_ne, h,
        beq_iff_eq]
      constructor
      · rintro ⟨sj, hsj, hdf, hlfn⟩
        exact ⟨hlfn, sj, hsj.1, hsj.2, hdf⟩
      · rintro ⟨hlfn, sj, hsj, hst, hdf⟩
        exact ⟨sj, ⟨hsj, hst⟩, hdf, hlfn⟩

/-- Witness for C8: the LFN-carrying file of a completed subjob is removed,
and the LFN-less file never is. -/
theorem delete_lfns_exact_witness :
    RemoteCall.remove exRootFile ∈ (delete_lfns exJob).2 ∧
    RemoteCall.remove exNoLfnFile ∉ (delete_lfns exJob).2 :=
  ⟨(delete_lfns_exact exJob exRootFile).mpr (by decide),
   fun hmem => by
     have := (delete_lfns_exact exJob exNoLfnFile).mp hmem
     exact absurd rfl this.1⟩

/-! ## Lemmas about the `download_lfns` loops -/

theorem download_step_prints_mono (gv : String) (jobId : Nat) (path : String)
    (m : DiracFile → Bool) (jid : Nat) (st : DLState) (df : DiracFile)
    {s : String} (h : s ∈ st.prints) :
    s ∈ (download_step gv jobId path m jid st df).prints := by
  unfold download_step
  split
  · simp [List.mem_append, h]
  · split
    · simp [List.mem_append, h]
    · split
      · simp [List.mem_append, h]
      · exact h

theorem download_step_dirs_mono (gv : String) (jobId : Nat) (path : String)
    (m : DiracFile → Bool) (jid : Nat) (st : DLState) (df : DiracFile)
    {d : String} (h : d ∈ st.fs.dirs) :
    d ∈ (download_step gv jobId path m jid st df).fs.dirs := by
  unfold download_step
  split
  · exact h
  · split
    · exact h
    · split
      · exact h
      · next fs2 heq =>
          unfold FS.makedirs at heq
          split at heq
          · exact absurd heq (by simp)
          · cases heq
            simp [List.mem_append, h]

theorem download_step_calls_char (gv : String) (jobId : Nat) (path : String)
    (m : DiracFile → Bool) (jid : Nat) (st : DLState) (df : DiracFile)
    (c : RemoteCall)
    (h : c ∈ (download_step gv jobId path m jid st df).calls) :
    c ∈ st.calls ∨
      (c = RemoteCall.get df (downloadDir path jobId jid) (ganga60 gv) ∧
       df.lfn ≠ "" ∧ m df = true ∧ downloadDir path jobId jid ∉ st.fs.dirs) := by
  unfold download_step at h
  split at h
  · exact Or.inl h
  next hlfn =>
    split at h
    next hm => exact Or.inl h
    next hm =>
      split at h
      · exact Or.inl h
      next fs2 heq =>
        rcases List.mem_append.mp h with h1 | h2
        · exact Or.inl h1
        · refine Or.inr ⟨List.mem_singleton.mp h2, by simpa using hlfn,
            by simpa using hm, fun hd => ?_⟩
          unfold FS.makedirs at heq
          rw [if_pos (List.elem_iff.mpr hd)] at heq
          exact absurd heq (by simp)

theorem download_output_loop_prints_mono (gv : String) (jobId : Nat)
    (path : String) (m : DiracFile → Bool) (jid : Nat) (output : List DiracFile)
    (st : DLState) {s : String} (h : s ∈ st.prints) :
    s ∈ (download_output_loop gv jobId path m jid st output).prints := by
  induction output generalizing st with
  | nil => exact h
  | cons df rest ih =>
      exact ih _ (download_step_prints_mono gv jobId path m jid st df h)

theorem download_output_loop_dirs_mono (gv : String) (jobId : Nat)
    (path : String) (m : DiracFile → Bool) (jid : Nat) (output : List DiracFile)
    (st : DLState) {d : String} (h : d ∈ st.fs.dirs) :
    d ∈ (download_output_loop gv jobId path m jid st output).fs.dirs := by
  induction output generalizing st with
  | nil => exact h
  | cons df rest ih =>
      exact ih _ (download_step_dirs_mono gv jobId path m jid st df h)

theorem download_output_loop_calls_char (gv : String) (jobId : Nat)
    (path : String) (m : DiracFile → Bool) (jid : Nat) (output : List DiracFile)
    (st : DLState) (c : RemoteCall)
    (h : c ∈ (download_output_loop gv jobId path m jid st output).calls) :
    c ∈ st.calls ∨
      ∃ df ∈ output,
        c = RemoteCall.get df (downloadDir path jobId jid) (ganga60 gv) ∧
          df.lfn ≠ "" ∧ m df = true := by
  induction output generalizing st with
  | nil => exact Or.inl h
  | cons df rest ih =>
      rcases ih _ h with h1 | ⟨df', hdf', hc⟩
      · rcases download_step_calls_char gv jobId path m jid st df c h1 with
          h2 | ⟨hc, hlfn, hm, _⟩
        · exact Or.inl h2
        · exact Or.inr ⟨df, List.mem_cons_self df rest, hc, hlfn, hm⟩
      · exact Or.inr ⟨df', List.mem_cons_of_mem df hdf', hc⟩

theorem download_output_loop_no_new_call_on_existing_dir (gv : String)
    (jobId : Nat) (path : String) (m : DiracFile → Bool) (jid : Nat)
    (output : List DiracFile) (st : DLState) {d : String}
    (hd : d ∈ st.fs.dirs) (df : DiracFile) (b : Bool)
    (h : RemoteCall.get df d b ∈
      (download_output_loop gv jobId path m jid st output).calls) :
    RemoteCall.get df d b ∈ st.calls := by
  induction output generalizing st with
  | nil => exact h
  | cons x rest ih =>
      have hd2 := download_step_dirs_mono gv jobId path m jid st x hd
      have h2 := ih _ hd2 h
      rcases download_step_calls_char gv jobId path m jid st x _ h2 with
        h3 | ⟨hc, _, _, hnd⟩
      · exact h3
      · cases hc
        exact absurd hd hnd

theorem download_loop_prints_mono (gv : String) (jobId : Nat) (path : String)
    (m : DiracFile → Bool) (outputs : List (Nat × List DiracFile))
    (st : DLState) {s : String} (h : s ∈ st.prints) :
    s ∈ (download_loop gv jobId path m st outputs).prints := by
  induction outputs generalizing st with
  | nil => exact h
  | cons p rest ih =>
      exact ih _ (download_output_loop_prints_mono gv jobId path m p.1 p.2 st h)

theorem download_loop_dirs_mono (gv : String) (jobId : Nat) (path : String)
    (m : DiracFile → Bool) (outputs : List (Nat × List DiracFile))
    (st : DLState) {d : String} (h : d ∈ st.fs.dirs) :
    d ∈ (download_loop gv jobId path m st outputs).fs.dirs := by
  induction outputs generalizing st with
  | nil => exact h
  | cons p rest ih =>
      exact ih _ (download_output_loop_dirs_mono gv jobId path m p.1 p.2 st h)

theorem download_loop_calls_char (gv : String) (jobId : Nat) (path : String)
    (m : DiracFile → Bool) (outputs : List (Nat × List DiracFile))
    (st : DLState) (c : RemoteCall)
    (h : c ∈ (download_loop gv jobId path m st outputs).calls) :
    c ∈ st.calls ∨
      ∃ p ∈ outputs, ∃ df ∈ p.2,
        c = RemoteCall.get df (downloadDir path jobId p.1) (ganga60 gv) ∧
          df.lfn ≠ "" ∧ m df = true := by
  induction outputs generalizing st with
  | nil => exact Or.inl h
  | cons p rest ih =>
      rcases ih _ h with h1 | ⟨p', hp', hrest⟩
      · rcases download_output_loop_calls_char gv jobId path m p.1 p.2 st c h1
          with h2 | ⟨df, hdf, hc⟩
        · exact Or.inl h2
        · exact Or.inr ⟨p, List.mem_cons_self p rest, df, hdf, hc⟩
      · exact Or.inr ⟨p', List.mem_cons_of_mem p hp', hrest⟩

theorem download_loop_no_new_call_on_existing_dir (gv : String) (jobId : Nat)
    (path : String) (m : DiracFile → Bool)
    (outputs : List (Nat × List DiracFile)) (st : DLState) {d : String}
    (hd : d ∈ st.fs.dirs) (df : DiracFile) (b : Bool)
    (h : RemoteCall.get df d b ∈ (download_loop gv jobId path m st outputs).calls) :
    RemoteCall.get df d b ∈ st.calls := by
  induction outputs generalizing st with
  | nil => exact h
  | cons p rest ih =>
      have hd2 := download_output_loop_dirs_mono gv jobId path m p.1 p.2 st hd
      exact download_output_loop_no_new_call_on_existing_dir gv jobId path m
        p.1 p.2 st hd df b (ih _ hd2 h)

/-- Any `get` call issued by `download_lfns` is for a file, of one of the
iterated outputs, that has an LFN and passes the matcher. -/
theorem download_lfns_calls_char (gv : String) (job : Job) (path : String)
    (matcher : Option (DiracFile → Bool)) (fs : FS) (c : RemoteCall)
    (h : c ∈ (download_lfns gv job path matcher fs).calls) :
    ∃ p ∈ download_outputs job, ∃ df ∈ p.2,
      c = RemoteCall.get df (downloadDir path job.id p.1) (ganga60 gv) ∧
        df.lfn ≠ "" ∧ (matcher.getD (fun _ => true)) df = true := by
  unfold download_lfns at h
  rcases download_loop_calls_char gv job.id path _ (download_outputs job) _ c h
    with h1 | h2
  · simp at h1
  · exact h2

theorem download_output_loop_lfn_skip (gv : String) (jobId : Nat)
    (path : String) (m : DiracFile → Bool) (jid : Nat) (output : List DiracFile)
    (st : DLState) (df : DiracFile) (hdf : df ∈ output) (hlfn : df.lfn = "") :
    ("Skipping job " ++ toString jobId ++ " subjob " ++ toString jid) ∈
      (download_output_loop gv jobId path m jid st output).prints ∧
    "No output data LFN" ∈
      (download_output_loop gv jobId path m jid st output).prints := by
  induction output generalizing st with
  | nil => exact absurd hdf (List.not_mem_nil df)
  | cons x rest ih =>
      rcases List.mem_cons.mp hdf with rfl | hmem
      · have hstep : ∀ s ∈
            (["Skipping job " ++ toString jobId ++ " subjob " ++ toString jid,
              "No output data LFN"] : List String),
            s ∈ (download_step gv jobId path m jid st df).prints := by
          intro s hs
          unfold download_step
          rw [if_pos (show (df.lfn == "") = true by simp [hlfn])]
          simp only [List.mem_append]
          exact Or.inr hs
        exact ⟨download_output_loop_prints_mono gv jobId path m jid rest _
            (hstep _ (by simp)),
          download_output_loop_prints_mono gv jobId path m jid rest _
            (hstep _ (by simp))⟩
      · exact ih _ hmem

theorem download_output_loop_matcher_skip (gv : String) (jobId : Nat)
    (path : String) (m : DiracFile → Bool) (jid : Nat) (output : List DiracFile)
    (st : DLState) (df : DiracFile) (hdf : df ∈ output) (hlfn : df.lfn ≠ "")
    (hm : m df = false) :
    ("Skipping job " ++ toString jobId ++ " subjob " ++ toString jid ++
        " file " ++ df.lfn) ∈
      (download_output_loop gv jobId path m jid st output).prints ∧
    "Not matched by matcher method" ∈
      (download_output_loop gv jobId path m jid st output).prints := by
  induction output generalizing st with
  | nil => exact absurd hdf (List.not_mem_nil df)
  | cons x rest ih =>
      rcases List.mem_cons.mp hdf with rfl | hmem
      · have hstep : ∀ s ∈
            (["Skipping job " ++ toString jobId ++ " subjob " ++ toString jid ++
                " file " ++ df.lfn,
              "Not matched by matcher method"] : List String),
            s ∈ (download_step gv jobId path m jid st df).prints := by
          intro s hs
          unfold download_step
          rw [if_neg (show ¬((df.lfn == "") = true) by simp [hlfn]),
            if_pos (show (!m df) = true by simp [hm])]
          simp only [List.mem_append]
          exact Or.inr hs
        exact ⟨download_output_loop_prints_mono gv jobId path m jid rest _
            (hstep _ (by simp)),
          download_output_loop_prints_mono gv jobId path m jid rest _
            (hstep _ (by simp))⟩
      · exact ih _ hmem

theorem download_output_loop_direxists_skip (gv : String) (jobId : Nat)
    (path : String) (m : DiracFile → Bool) (jid : Nat) (output : List DiracFile)
    (st : DLState) (hd : downloadDir path jobId jid ∈ st.fs.dirs)
    (df : DiracFile) (hdf : df ∈ output) (hlfn : df.lfn ≠ "")
    (hm : m df = true) :
    ("Directory exists: " ++ downloadDir path jobId jid) ∈
      (download_output_loop gv jobId path m jid st output).prints := by
  induction output generalizing st with
  | nil => exact absurd hdf (List.not_mem_nil df)
  | cons x rest ih =>
      rcases List.mem_cons.mp hdf with rfl | hmem
      · have hstep : ("Directory exists: " ++ downloadDir path jobId jid) ∈
            (download_step gv jobId path m jid st df).prints := by
          unfold download_step
          rw [if_neg (show ¬((df.lfn == "") = true) by simp [hlfn]),
            if_neg (show ¬((!m df) = true) by simp [hm]),
            show st.fs.makedirs (downloadDir path jobId jid) = .error .osError by
              unfold FS.makedirs
              rw [if_pos (List.elem_iff.mpr hd)]]
          simp
        exact download_output_loop_prints_mono gv jobId path m jid rest _ hstep
      · exact ih _ (download_step_dirs_mono gv jobId path m jid st x hd) hmem

theorem download_loop_lfn_skip (gv : String) (jobId : Nat) (path : String)
    (m : DiracFile → Bool) (outputs : List (Nat × List DiracFile))
    (st : DLState) (p : Nat × List DiracFile) (hp : p ∈ outputs)
    (df : DiracFile) (hdf : df ∈ p.2) (hlfn : df.lfn = "") :
    ("Skipping job " ++ toString jobId ++ " subjob " ++ toString p.1) ∈
      (download_loop gv jobId path m st outputs).prints ∧
    "No output data LFN" ∈ (download_loop gv jobId path m st outputs).prints := by
  induction outputs generalizing st with
  | nil => exact absurd hp (List.not_mem_nil p)
  | cons q rest ih =>
      rcases List.mem_cons.mp hp with rfl | hmem
      · have h := download_output_loop_lfn_skip gv jobId path m p.1 p.2 st df
          hdf hlfn
        exact ⟨download_loop_prints_mono gv jobId path m rest _ h.1,
          download_loop_prints_mono gv jobId path m rest _ h.2⟩
      · exact ih _ hmem

theorem download_loop_matcher_skip (gv : String) (jobId : Nat) (path : String)
    (m : DiracFile → Bool) (outputs : List (Nat × List DiracFile))
    (st : DLState) (p : Nat × List DiracFile) (hp : p ∈ outputs)
    (df : DiracFile) (hdf : df ∈ p.2) (hlfn : df.lfn ≠ "") (hm : m df = false) :
    ("Skipping job " ++ toString jobId ++ " subjob " ++ toString p.1 ++
        " file " ++ df.lfn) ∈
      (download_loop gv jobId path m st outputs).prints ∧
    "Not matched by matcher method" ∈
      (download_loop gv jobId path m st outputs).prints := by
  induction outputs generalizing st with
  | nil => exact absurd hp (List.not_mem_nil p)
  | cons q rest ih =>
      rcases List.mem_cons.mp hp with rfl | hmem
      · have h := download_output_loop_matcher_skip gv jobId path m p.1 p.2 st
          df hdf hlfn hm
        exact ⟨download_loop_prints_mono gv jobId path m rest _ h.1,
          download_loop_prints_mono gv jobId path m rest _ h.2⟩
      · exact ih _ hmem

theorem download_loop_direxists_skip (gv : String) (jobId : Nat) (path : String)
    (m : DiracFile → Bool) (outputs : List (Nat × List DiracFile))
    (st : DLState) (p : Nat × List DiracFile) (hp : p ∈ outputs)
    (hd : downloadDir path jobId p.1 ∈ st.fs.dirs) (df : DiracFile)
    (hdf : df ∈ p.2) (hlfn : df.lfn ≠ "") (hm : m df = true) :
    ("Directory exists: " ++ downloadDir path jobId p.1) ∈
      (download_loop gv jobId path m st outputs).prints := by
  induction outputs generalizing st with
  | nil => exact absurd hp (List.not_mem_nil p)
  | cons q rest ih =>
      rcases List.mem_cons.mp hp with rfl | hmem
      · exact download_loop_prints_mono gv jobId path m rest _
          (download_output_loop_direxists_skip gv jobId path m p.1 p.2 st hd df
            hdf hlfn hm)
      · exact ih _ hmem (download_output_loop_dirs_mono gv jobId path m q.1 q.2 st hd)

/-! ## C7 -/

/-- C7: re-invoking `download_lfns` when the destination directory
`path/job.id/subjob.id` already exists never issues a `get` into that
directory for any file: the subjob is skipped, the fetch is not repeated. -/
theorem download_skips_existing_dir (gv : String) (job : Job) (path : String)
    (matcher : Option (DiracFile → Bool)) (fs : FS) (jid : Nat)
    (h : downloadDir path job.id jid ∈ fs.dirs) (df : DiracFile) (b : Bool) :
    RemoteCall.get df (downloadDir path job.id jid) b ∉
      (download_lfns gv job path matcher fs).calls := by
  intro hmem
  unfold download_lfns at hmem
  have h2 := download_loop_no_new_call_on_existing_dir gv job.id path
    (matcher.getD fun _ => true) (download_outputs job) _ h df b hmem
  simp at h2

/-- Witness for C7: with `/work/7/0` already present, the completed
subjob 0 of `exJob` is not fetched again. -/
theorem download_skips_existing_dir_witness :
    downloadDir "/work" 7 0 ∈ (FS.mk ["/work/7/0"]).dirs ∧
    RemoteCall.get exRootFile (downloadDir "/work" 7 0) true ∉
      (download_lfns "6-0-rel" exJob "/work" none ⟨["/work/7/0"]⟩).calls :=
  ⟨by decide,
   download_skips_existing_dir "6-0-rel" exJob "/work" none ⟨["/work/7/0"]⟩ 0
     (by decide) exRootFile true⟩

/-! ## C6 -/

/-- C6: `download_lfns` raises no error for its skip conditions: a file
without an LFN, a file rejected by the matcher, and a subjob whose
destination directory already exists are each skipped with printed
reasons and never fetched, and the loops keep processing the remaining
files unchanged (a skipped file alters neither the filesystem nor the
call list, only the console output). -/
theorem download_lfns_skip_behaviour (gv : String) (job : Job) (path : String)
    (m : DiracFile → Bool) (fs : FS) :
    (∀ p ∈ download_outputs job, ∀ df ∈ p.2, df.lfn = "" →
        (∀ lp b, RemoteCall.get df lp b ∉
            (download_lfns gv job path (some m) fs).calls) ∧
        ("Skipping job " ++ toString job.id ++ " subjob " ++ toString p.1) ∈
          (download_lfns gv job path (some m) fs).prints ∧
        "No output data LFN" ∈ (download_lfns gv job path (some m) fs).prints) ∧
    (∀ p ∈ download_outputs job, ∀ df ∈ p.2, df.lfn ≠ "" → m df = false →
        (∀ lp b, RemoteCall.get df lp b ∉
            (download_lfns gv job path (some m) fs).calls) ∧
        ("Skipping job " ++ toString job.id ++ " subjob " ++ toString p.1 ++
            " file " ++ df.lfn) ∈
          (download_lfns gv job path (some m) fs).prints ∧
        "Not matched by matcher method" ∈
          (download_lfns gv job path (some m) fs).prints) ∧
    (∀ p ∈ download_outputs job, downloadDir path job.id p.1 ∈ fs.dirs →
        (∀ df b, RemoteCall.get df (downloadDir path job.id p.1) b ∉
            (download_lfns gv job path (some m) fs).calls) ∧
        (∀ df ∈ p.2, df.lfn ≠ "" → m df = true →
          ("Directory exists: " ++ downloadDir path job.id p.1) ∈
            (download_lfns gv job path (some m) fs).prints)) ∧
    (∀ (df : DiracFile) (output : List DiracFile) (st : DLState) (jid : Nat),
        df.lfn = "" ∨ m df = false →
        download_output_loop gv job.id path m jid st (df :: output) =
          download_output_loop gv job.id path m jid
            (download_step gv job.id path m jid st df) output ∧
        (download_step gv job.id path m jid st df).fs = st.fs ∧
        (download_step gv job.id path m jid st df).calls = st.calls) := by
  refine ⟨?_, ?_, ?_, ?_⟩
  · intro p hp df hdf hlfn
    refine ⟨?_, ?_, ?_⟩
    · intro lp b hmem
      obtain ⟨p', hp', df', hdf', hc, hlfn', hm'⟩ :=
        download_lfns_calls_char gv job path (some m) fs _ hmem
      injection hc with h1 h2 h3
      exact hlfn' (h1 ▸ hlfn)
    · exact (download_loop_lfn_skip gv job.id path m (download_outputs job) _
        p hp df hdf hlfn).1
    · exact (download_loop_lfn_skip gv job.id path m (download_outputs job) _
        p hp df hdf hlfn).2
  · intro p hp df hdf hlfn hm
    refine ⟨?_, ?_, ?_⟩
    · intro lp b hmem
      obtain ⟨p', hp', df', hdf', hc, hlfn', hm'⟩ :=
        download_lfns_calls_char gv job path (some m) fs _ hmem
      injection hc with h1 h2 h3
      rw [← h1] at hm'
      simp only [Option.getD_some] at hm'
      rw [hm] at hm'
      exact Bool.false_ne_true hm'
    · exact (download_loop_matcher_skip gv job.id path m (download_outputs job)
        _ p hp df hdf hlfn hm).1
    · exact (download_loop_matcher_skip gv job.id path m (download_outputs job)
        _ p hp df hdf hlfn hm).2
  · intro p hp hd
    refine ⟨?_, ?_⟩
    · intro df b hmem
      unfold download_lfns at hmem
      have h2 := download_loop_no_new_call_on_existing_dir gv job.id path m
        (download_outputs job) _ hd df b hmem
      simp at h2
    · intro df hdf hlfn hm
      exact download_loop_direxists_skip gv job.id path m (download_outputs job)
        _ p hp hd df hdf hlfn hm
  · intro df output st jid h
    refine ⟨rfl, ?_, ?_⟩
    · rcases h with hlfn | hm
      · unfold download_step
        rw [if_pos (show (df.lfn == "") = true by simp [hlfn])]
      · by_cases hl : (df.lfn == "") = true
        · unfold download_step
          rw [if_pos hl]
        · unfold download_step
          rw [if_neg hl, if_pos (show (!m df) = true by simp [hm])]
    · rcases h with hlfn | hm
      · unfold download_step
        rw [if_pos (show (df.lfn == "") = true by simp [hlfn])]
      · by_cases hl : (df.lfn == "") = true
        · unfold download_step
          rw [if_pos hl]
        · unfold download_step
          rw [if_neg hl, if_pos (show (!m df) = true by simp [hm])]

/-- Witness for C6: the LFN-less file of `exJob`'s completed subjob is
skipped with the printed reason and never fetched. -/
theorem download_lfns_skip_behaviour_witness :
    "No output data LFN" ∈
      (download_lfns "6.1.2" exJob "/work" (some fun _ => true) ⟨[]⟩).prints ∧
    (∀ lp b, RemoteCall.get exNoLfnFile lp b ∉
      (download_lfns "6.1.2" exJob "/work" (some fun _ => true) ⟨[]⟩).calls) := by
  have h := (download_lfns_skip_behaviour "6.1.2" exJob "/work" (fun _ => true)
      ⟨[]⟩).1 (0, exCompletedSubjob.outputfiles) (by decide) exNoLfnFile
      (by decide) rfl
  exact ⟨h.2.2, h.1⟩

/-! ## Lemmas about `writelines` -/

theorem writelines_newline_count (l : List String)
    (h : ∀ s ∈ l, ('\n') ∉ s.data) :
    ((writelines (l.map (fun s => s ++ "\n"))).data).count '\n' = l.length := by
  induction l with
  | nil => rfl
  | cons s rest ih =>
      have hs : s.data.count '\n' = 0 :=
        List.count_eq_zero.mpr (h s (List.mem_cons_self s rest))
      have hrest := ih (fun t ht => h t (List.mem_cons_of_mem s ht))
      rw [List.map_cons,
        show writelines ((s ++ "\n") :: rest.map (fun t => t ++ "\n")) =
          (s ++ "\n") ++ writelines (rest.map (fun t => t ++ "\n")) from rfl,
        String.data_append, String.data_append,
        show ("\n" : String).data = ['\n'] from rfl,
        List.count_append, List.count_append, hs, hrest]
      simp [List.length_cons, Nat.add_comm]

theorem writelines_last_newline (l : List String) (h : l ≠ []) :
    ((writelines (l.map (fun s => s ++ "\n"))).data).getLast? = some '\n' := by
  induction l with
  | nil => exact absurd rfl h
  | cons s rest ih =>
      have key : ((s ++ "\n") ++
            writelines (rest.map (fun t => t ++ "\n"))).data.getLast? =
          ((writelines (rest.map (fun t => t ++ "\n"))).data.getLast?).or
            (some '\n') := by
        rw [String.data_append, String.data_append,
          show ("\n" : String).data = ['\n'] from rfl, List.getLast?_append,
          List.getLast?_concat]
      rw [List.map_cons,
        show writelines ((s ++ "\n") :: rest.map (fun t => t ++ "\n")) =
          (s ++ "\n") ++ writelines (rest.map (fun t => t ++ "\n")) from rfl,
        key]
      rcases eq_or_ne rest [] with rfl | hne
      · rfl
      · rw [ih hne]
        rfl

/-! ## C3 -/

/-- C3 counterexample: for a completed job with an empty subjob list and a
`CERN-USER` output file, `write_lfns` does not overwrite the file at all
(neither with that file's line nor with empty content): it aborts with
`AttributeError` raised by `select` on a plain list. -/
theorem write_lfns_fails_without_subjobs :
    write_lfns noSubjobsJob "lfns.txt" true = .error .attributeError ∧
    write_lfns noSubjobsJob "lfns.txt" true ≠
      .ok ("lfns.txt", "/lhcb/user/a.root\n") ∧
    write_lfns noSubjobsJob "lfns.txt" true ≠ .ok ("lfns.txt", "") :=
  ⟨rfl, by decide, by decide⟩

/-- C3 (amended to jobs with at least one subjob): `write_lfns` with
`cern_only = true` overwrites the file with exactly one line per output
file located at `CERN-USER` across completed subjobs, in iteration order,
each line newline-terminated, with no trailing blank line beyond the final
newline (when no collected LFN itself contains a newline, the newline
count equals the number of collected files, and a nonempty collection ends
in exactly the final newline). -/
theorem write_lfns_lines (job : Job) (fname : String) (h : job.subjobs ≠ [])
    (hnl : ∀ l ∈ lfnsCollected (completed_subjobs job) true, ('\n') ∉ l.data) :
    write_lfns job fname true =
      .ok (fname, writelines ((lfnsCollected (completed_subjobs job) true).map
        (fun lfn => lfn ++ "\n"))) ∧
    ((writelines ((lfnsCollected (completed_subjobs job) true).map
        (fun lfn => lfn ++ "\n"))).data).count '\n' =
      (lfnsCollected (completed_subjobs job) true).length ∧
    (lfnsCollected (completed_subjobs job) true = [] →
      writelines ((lfnsCollected (completed_subjobs job) true).map
        (fun lfn => lfn ++ "\n")) = "") ∧
    (lfnsCollected (completed_subjobs job) true ≠ [] →
      ((writelines ((lfnsCollected (completed_subjobs job) true).map
        (fun lfn => lfn ++ "\n"))).data).getLast? = some '\n') := by
  refine ⟨?_, writelines_newline_count _ hnl, ?_, writelines_last_newline _⟩
  · unfold write_lfns
    rw [select_completed_of_ne_nil job h]
    rfl
  · intro he
    rw [he]
    rfl

/-- Witness for C3 (amended) at `exJob`: two collected files (one with an
empty LFN), two newline-terminated lines. -/
theorem write_lfns_lines_witness :
    write_lfns exJob "lfns.txt" true =
      .ok ("lfns.txt", "/lhcb/user/a.root\n\n") ∧
    ("/lhcb/user/a.root\n\n".data).count '\n' = 2 := by
  have h := write_lfns_lines exJob "lfns.txt" (by decide) (by decide)
  refine ⟨?_, ?_⟩
  · rw [h.1]
    decide
  · exact h.2.1

/-! ## C10 -/

theorem delete_lfns_calls_have_lfn (j : Job) (df : DiracFile)
    (hmem : RemoteCall.remove df ∈ (delete_lfns j).2) : df.lfn ≠ "" := by
  unfold delete_lfns at hmem
  simp only [List.mem_flatMap, List.mem_map, List.mem_filter] at hmem
  obtain ⟨output, houtput, df', ⟨hdf', hlfn⟩, heq⟩ := hmem
  injection heq with h1
  rw [← h1]
  exact bne_iff_ne.mp hlfn

/-- C10: `write_lfns` appends `df.lfn` unconditionally for every
`CERN-USER`-located file of a completed subjob — even an empty (absent)
LFN is collected and written — whereas `delete_lfns` and `download_lfns`
only ever act on files whose LFN is nonempty. -/
theorem write_lfns_ignores_missing_lfn (job : Job) (fname : String)
    (h : job.subjobs ≠ []) :
    write_lfns job fname true =
      .ok (fname, writelines ((lfnsCollected (completed_subjobs job) true).map
        (fun lfn => lfn ++ "\n"))) ∧
    (∀ sj ∈ job.subjobs, sj.status = "completed" →
      ∀ df ∈ sj.outputfiles, df.locations.contains "CERN-USER" = true →
        df.lfn ∈ lfnsCollected (completed_subjobs job) true) ∧
    (∀ (j : Job) (df : DiracFile),
        RemoteCall.remove df ∈ (delete_lfns j).2 → df.lfn ≠ "") ∧
    (∀ (gv : String) (j : Job) (path : String)
        (matcher : Option (DiracFile → Bool)) (fs : FS) (df : DiracFile)
        (lp : String) (b : Bool),
        RemoteCall.get df lp b ∈ (download_lfns gv j path matcher fs).calls →
          df.lfn ≠ "") := by
  refine ⟨?_, ?_, delete_lfns_calls_have_lfn, ?_⟩
  · unfold write_lfns
    rw [select_completed_of_ne_nil job h]
    rfl
  · intro sj hsj hst df hdf hloc
    unfold lfnsCollected
    rw [List.mem_flatMap]
    refine ⟨sj, ?_, ?_⟩
    · exact List.mem_filter.mpr ⟨hsj, by simp [hst]⟩
    · exact List.mem_map.mpr
        ⟨df, List.mem_filter.mpr ⟨hdf, by simp [List.elem_iff.mp hloc]⟩, rfl⟩
  · intro gv j path matcher fs df lp b hmem
    obtain ⟨p', hp', df', hdf', hc, hlfn', hm'⟩ :=
      download_lfns_calls_char gv j path matcher fs _ hmem
    injection hc with h1 h2 h3
    rw [h1]
    exact hlfn'

/-- Witness for C10: the empty LFN of `exNoLfnFile` is collected and
written by `write_lfns`, producing a blank line. -/
theorem write_lfns_ignores_missing_lfn_witness :
    exNoLfnFile.lfn = "" ∧
    "" ∈ lfnsCollected (completed_subjobs exJob) true ∧
    write_lfns exJob "out.txt" true = .ok ("out.txt", "/lhcb/user/a.root\n\n") := by
  have h := write_lfns_ignores_missing_lfn exJob "out.txt" (by decide)
  refine ⟨rfl, ?_, ?_⟩
  · exact h.2.1 exCompletedSubjob (by decide) rfl exNoLfnFile (by decide)
      (by decide)
  · rw [h.1]
    decide

/-! ## Lemmas about the `access_urls` loops -/

theorem access_fold_char (sjid : Nat) (files : List DiracFile)
    (acc : List String × List (List String))
    (h : ∀ df ∈ files, onlyKeyError df) :
    files.foldlM (access_step sjid) acc =
      .ok (acc.1 ++ (files.filter (fun df => !df.accessURL.isOk)).map
             (fun _ => "Could not get accessURL for " ++ toString sjid),
           acc.2 ++ files.filterMap (fun df => df.accessURL.toOption)) := by
  induction files generalizing acc with
  | nil => simp [List.foldlM_nil, pure, Except.pure]
  | cons df rest ih =>
      have hrest : ∀ x ∈ rest, onlyKeyError x :=
        fun x hx => h x (List.mem_cons_of_mem df hx)
      rcases h df (List.mem_cons_self df rest) with hok | hkey
      · obtain ⟨u, hu⟩ : ∃ u, df.accessURL = .ok u := by
          cases hval : df.accessURL with
          | ok u => exact ⟨u, rfl⟩
          | error e =>
              rw [hval] at hok
              exact absurd hok (by simp [Except.isOk, Except.toBool])
        rw [List.foldlM_cons,
          show access_step sjid acc df = .ok (acc.1, acc.2 ++ [u]) by
            unfold access_step
            rw [hu],
          show ((Except.ok (acc.1, acc.2 ++ [u]) :
              Except PyError (List String × List (List String))) >>=
                fun init => rest.foldlM (access_step sjid) init) =
            rest.foldlM (access_step sjid) (acc.1, acc.2 ++ [u]) from rfl,
          ih _ hrest]
        simp [List.filter_cons, List.filterMap_cons, hu, Except.isOk,
          Except.toBool, Except.toOption, List.append_assoc,
          List.replicate_succ]
      · rw [List.foldlM_cons,
          show access_step sjid acc df =
            .ok (acc.1 ++ ["Could not get accessURL for " ++ toString sjid],
              acc.2) by
            unfold access_step
            rw [hkey],
          show ((Except.ok (acc.1 ++
                ["Could not get accessURL for " ++ toString sjid], acc.2) :
              Except PyError (List String × List (List String))) >>=
                fun init => rest.foldlM (access_step sjid) init) =
            rest.foldlM (access_step sjid)
              (acc.1 ++ ["Could not get accessURL for " ++ toString sjid],
                acc.2) from rfl,
          ih _ hrest]
        simp [List.filter_cons, List.filterMap_cons, hkey, Except.isOk,
          Except.toBool, Except.toOption, List.append_assoc,
          List.replicate_succ]

theorem access_outer_char (matcher : DiracFile → Bool) (sjs : List Subjob)
    (acc : List String × List (List String))
    (h : ∀ sj ∈ sjs, ∀ df ∈ sj.outputfiles, onlyKeyError df) :
    (sjs.foldlM (fun acc sj =>
        (sj.outputfiles.filter matcher).foldlM (access_step sj.id) acc) acc) =
      .ok (acc.1 ++ sjs.flatMap (fun sj =>
             (((sj.outputfiles.filter matcher).filter
                 (fun df => !df.accessURL.isOk)).map
               (fun _ => "Could not get accessURL for " ++ toString sj.id))),
           acc.2 ++ sjs.flatMap (fun sj =>
             (sj.outputfiles.filter matcher).filterMap
               (fun df => df.accessURL.toOption))) := by
  induction sjs generalizing acc with
  | nil => simp [List.foldlM_nil, pure, Except.pure]
  | cons sj rest ih =>
      have hsj : ∀ df ∈ sj.outputfiles.filter matcher, onlyKeyError df :=
        fun df hdf => h sj (List.mem_cons_self sj rest) df
          (List.mem_filter.mp hdf).1
      have hrest : ∀ x ∈ rest, ∀ df ∈ x.outputfiles, onlyKeyError df :=
        fun x hx => h x (List.mem_cons_of_mem sj hx)
      rw [List.foldlM_cons, access_fold_char sj.id _ acc hsj,
        show ((Except.ok (acc.1 ++ _, acc.2 ++ _) :
            Except PyError (List String × List (List String))) >>=
              fun init => rest.foldlM _ init) =
          rest.foldlM (fun acc sj =>
            (sj.outputfiles.filter matcher).foldlM (access_step sj.id) acc)
            (acc.1 ++ ((sj.outputfiles.filter matcher).filter
                (fun df => !df.accessURL.isOk)).map
              (fun _ => "Could not get accessURL for " ++ toString sj.id),
             acc.2 ++ (sj.outputfiles.filter matcher).filterMap
               (fun df => df.accessURL.toOption)) from rfl,
        ih _ hrest]
      simp [List.flatMap_cons, List.append_assoc]

/-- Under subjobs present and URL failures limited to `KeyError`,
`access_urls` succeeds with one console notice per failing matched file and
the `accessURL` value of each succeeding matched file of each completed
subjob, in order. -/
theorem access_urls_char (job : Job) (matcher : DiracFile → Bool)
    (h : job.subjobs ≠ [])
    (hk : ∀ sj ∈ completed_subjobs job, ∀ df ∈ sj.outputfiles,
      onlyKeyError df) :
    access_urls job matcher =
      .ok ((completed_subjobs job).flatMap (fun sj =>
             (((sj.outputfiles.filter matcher).filter
                 (fun df => !df.accessURL.isOk)).map
               (fun _ => "Could not get accessURL for " ++ toString sj.id))),
           (completed_subjobs job).flatMap (fun sj =>
             (sj.outputfiles.filter matcher).filterMap
               (fun df => df.accessURL.toOption))) := by
  unfold access_urls
  rw [select_completed_of_ne_nil job h,
    show ((Except.ok (completed_subjobs job) :
        Except PyError (List Subjob)) >>= fun sjs =>
          sjs.foldlM (fun acc sj =>
            (sj.outputfiles.filter matcher).foldlM (access_step sj.id) acc)
            (([], []) : List String × List (List String))) =
      (completed_subjobs job).foldlM (fun acc sj =>
        (sj.outputfiles.filter matcher).foldlM (access_step sj.id) acc)
        (([], []) : List String × List (List String)) from rfl,
    access_outer_char matcher _ _ hk]
  simp

/-! ## C4 -/

/-- C4 counterexample: for a completed job with an empty subjob list and a
single `.root` output file with a working access URL, `access_urls` does
not return any list at all — neither the file's URL nor an empty result:
it aborts with `AttributeError` raised by `select` on a plain list. -/
theorem access_urls_fails_without_subjobs :
    access_urls noSubjobsJob diracfile_root_matcher = .error .attributeError ∧
    access_urls noSubjobsJob diracfile_root_matcher ≠
      .ok ([], [["root://eoslhcb.cern.ch//a.root"]]) ∧
    access_urls noSubjobsJob diracfile_root_matcher ≠ .ok ([], []) :=
  ⟨rfl, by decide, by decide⟩

/-- C4 (amended to jobs with at least one subjob, with `accessURL` failures
limited to the narrowly caught `KeyError`): `access_urls(job, matcher)`
returns exactly the `accessURL()` values of the matcher-satisfying output
files of completed subjobs whose call succeeds, and under the default
matcher every element of the result comes from a file whose `namePattern`
ends with `.root` in a completed subjob — a non-`.root` file is excluded
regardless of status. -/
theorem access_urls_amended (job : Job) (matcher : DiracFile → Bool)
    (h : job.subjobs ≠ [])
    (hk : ∀ sj ∈ completed_subjobs job, ∀ df ∈ sj.outputfiles,
      onlyKeyError df) :
    (∃ prints, access_urls job matcher =
      .ok (prints, (completed_subjobs job).flatMap (fun sj =>
        (sj.outputfiles.filter matcher).filterMap
          (fun df => df.accessURL.toOption)))) ∧
    (∀ prints urls, access_urls job diracfile_root_matcher = .ok (prints, urls) →
      ∀ u ∈ urls, ∃ sj ∈ job.subjobs, sj.status = "completed" ∧
        ∃ df ∈ sj.outputfiles, strEndsWith df.namePattern ".root" = true ∧
          df.accessURL = .ok u) := by
  constructor
  · exact ⟨_, access_urls_char job matcher h hk⟩
  · intro prints urls heq u hu
    rw [access_urls_char job diracfile_root_matcher h hk] at heq
    injection heq with heq'
    have hurls : urls = (completed_subjobs job).flatMap (fun sj =>
        (sj.outputfiles.filter diracfile_root_matcher).filterMap
          (fun df => df.accessURL.toOption)) := (congrArg Prod.snd heq').symm
    rw [hurls] at hu
    rw [List.mem_flatMap] at hu
    obtain ⟨sj, hsj, hu2⟩ := hu
    rw [List.mem_filterMap] at hu2
    obtain ⟨df, hdf, hopt⟩ := hu2
    have hsj' := List.mem_filter.mp hsj
    have hdf' := List.mem_filter.mp hdf
    refine ⟨sj, hsj'.1, by simpa using hsj'.2, df, hdf'.1, hdf'.2, ?_⟩
    cases hval : df.accessURL with
    | ok v =>
        rw [hval] at hopt
        simp only [Except.toOption] at hopt
        rw [Option.some_inj.mp hopt]
    | error e =>
        rw [hval] at hopt
        exact absurd hopt (by simp [Except.toOption])

/-- Witness for C4 (amended) at `exJob`: the sole returned element is the
URL list of the `.root` file whose `accessURL()` succeeds. -/
theorem access_urls_amended_witness :
    ∃ prints, access_urls exJob diracfile_root_matcher =
      .ok (prints, [["root://eoslhcb.cern.ch//a.root"]]) := by
  obtain ⟨p, hp⟩ :=
    (access_urls_amended exJob diracfile_root_matcher (by decide) (by decide)).1
  have hbig : ((completed_subjobs exJob).flatMap fun sj =>
      List.filterMap (fun df => df.accessURL.toOption)
        (List.filter diracfile_root_matcher sj.outputfiles)) =
      [["root://eoslhcb.cern.ch//a.root"]] := by decide
  exact ⟨p, by rw [hp, hbig]⟩

/-! ## C5 -/

/-- C5: when `accessURL()` fails (with the narrowly caught `KeyError`) for
a matching output file of a completed subjob, `access_urls` skips that
entry, prints a notice naming the subjob, and still returns the URLs of
all other files instead of failing as a whole. -/
theorem access_urls_skips_failures (job : Job) (matcher : DiracFile → Bool)
    (h : job.subjobs ≠ [])
    (hk : ∀ sj ∈ completed_subjobs job, ∀ df ∈ sj.outputfiles,
      onlyKeyError df) :
    ∃ prints urls, access_urls job matcher = .ok (prints, urls) ∧
      urls = (completed_subjobs job).flatMap (fun sj =>
        (sj.outputfiles.filter matcher).filterMap
          (fun df => df.accessURL.toOption)) ∧
      (∀ sj ∈ completed_subjobs job, ∀ df ∈ sj.outputfiles, matcher df = true →
        df.accessURL = .error .keyError →
          ("Could not get accessURL for " ++ toString sj.id) ∈ prints) := by
  refine ⟨_, _, access_urls_char job matcher h hk, rfl, ?_⟩
  intro sj hsj df hdf hm hfail
  rw [List.mem_flatMap]
  refine ⟨sj, hsj, ?_⟩
  rw [List.mem_map]
  refine ⟨df, ?_, rfl⟩
  refine List.mem_filter.mpr ⟨List.mem_filter.mpr ⟨hdf, hm⟩, ?_⟩
  rw [hfail]
  rfl

/-- Witness for C5 at `exJob`: subjob 2's file fails with `KeyError`, a
notice for subjob 2 is printed, and the good URL is still returned. -/
theorem access_urls_skips_failures_witness :
    ∃ prints urls,
      access_urls exJob diracfile_root_matcher = .ok (prints, urls) ∧
      "Could not get accessURL for 2" ∈ prints ∧
      urls = [["root://eoslhcb.cern.ch//a.root"]] := by
  obtain ⟨p, u, heq, hu, hnot⟩ :=
    access_urls_skips_failures exJob diracfile_root_matcher (by decide)
      (by decide)
  refine ⟨p, u, heq, ?_, ?_⟩
  · exact hnot exKeyErrSubjob (by decide) exKeyErrFile (by decide) (by decide)
      rfl
  · rw [hu]
    decide
